import Mathlib

/-!
# moby-cli: the container façade and its command dispatcher

A shallow embedding of `api.go` and `main.go`.

* Go strings are Lean `String`s.  The only string operation of the program that looks inside a
  string is `strings.Split` with the one-byte ASCII separators `"/"` and `" "`; on well-formed
  UTF-8 text, splitting on characters and splitting on bytes agree.
* The Docker client (`*client.Client`) is an external collaborator.  It is modelled as a record of
  state transformers over an arbitrary state type `σ`, so that a theorem quantified over `σ`, the
  record and the initial state speaks about every (deterministic, possibly stateful) daemon stub.
* Every effect of the program (a daemon call, a log line, a write to standard output, a read or a
  close of a log stream) is recorded, in program order, in the list of events of a run.
* A run that blocks forever in `select` has no result (`result = none`).
* The client built by `client.NewClientWithOpts` parses an image reference before it asks the
  daemon; `client.NewClientWithOpts` puts that check in front of a daemon stub.
-/

namespace strings

/-- Putting a character in front of the first piece of a list of pieces. -/
def consHead (c : Char) : List (List Char) → List (List Char)
  | [] => [[c]]
  | t :: ts => (c :: t) :: ts

/-- Scanner behind `Split` for a non-empty separator: the text is read left to right, `skip` counts
the characters of an already matched separator that are still to be dropped, and every match of
the separator at the current position closes the current piece (leftmost, non-overlapping
matches, as the `Index` loop of Go's `genSplit` finds them). -/
def genSplit (sep : List Char) : List Char → Nat → List (List Char)
  | [], _ => [[]]
  | _ :: cs, skip + 1 => genSplit sep cs skip
  | c :: cs, 0 =>
      if sep.isPrefixOf (c :: cs) then [] :: genSplit sep cs (sep.length - 1)
      else consHead c (genSplit sep cs 0)

/-- Go's `strings.Split(s, sep)`: all substrings of `s` separated by `sep`.  With an empty
separator the text is split after each character. -/
def Split (s sep : String) : List String :=
  if sep.data = [] then s.data.map fun c => String.mk [c]
  else (genSplit sep.data s.data 0).map String.mk

end strings

/-- The function `imageName` of `api.go`: the last piece of the reference split at `"/"`. -/
def imageName (image : String) : String :=
  let s := strings.Split image "/"
  if h : s.length = 0 then ""
  else s.get ⟨s.length - 1, by omega⟩

/-! ## Values exchanged with the Docker client -/

/-- A Go `error` value that is not nil: an error made by the daemon client or by `fmt.Errorf`, or
such an error with a message put in front of it by `errors.Wrap`. -/
inductive GoError where
  | base (msg : String)
  | withMessage (cause : GoError) (msg : String)
deriving DecidableEq, Repr

/-- The text of an error: a wrapped error prints its message, a colon and its cause. -/
def GoError.Error : GoError → String
  | .base msg => msg
  | .withMessage cause msg => msg ++ ": " ++ cause.Error

namespace errors

/-- The call `errors.Wrap(err, message)` of `github.com/pkg/errors` on an error that is not nil (every
call of the program is behind `err != nil`); the recorded stack is not modelled. -/
def Wrap (err : GoError) (message : String) : GoError :=
  .withMessage err message

end errors

namespace fmt

/-- The call `fmt.Errorf(format)` with a format that has no verbs. -/
def Errorf (format : String) : GoError :=
  .base format

end fmt

/-- Go's `time.Duration`: a count of nanoseconds. -/
abbrev Duration := Int

namespace time

def Nanosecond : Duration := 1
def Microsecond : Duration := 1000 * Nanosecond
def Millisecond : Duration := 1000 * Microsecond
def Second : Duration := 1000 * Millisecond

end time

/-- The constant `stopTimeout` of `api.go`. -/
def stopTimeout : Duration := time.Second * 30

/-- Docker's `types.ImagePullOptions` (its callback field left out); the default is Go's zero value. -/
structure ImagePullOptions where
  All : Bool := false
  RegistryAuth : String := ""
  Platform : String := ""
deriving DecidableEq, Repr

/-- Docker's `container.Config`, restricted to the fields the program sets; the default is Go's zero
value, a nil slice being the empty list. -/
structure Config where
  Image : String := ""
  Cmd : List String := []
  Tty : Bool := false
deriving DecidableEq, Repr

/-- Docker's `container.HostConfig`; the program only ever passes nil. -/
structure HostConfig where
deriving DecidableEq, Repr

/-- Docker's `network.NetworkingConfig`; the program only ever passes nil. -/
structure NetworkingConfig where
deriving DecidableEq, Repr

/-- Docker's `container.ContainerCreateCreatedBody`. -/
structure ContainerCreateCreatedBody where
  ID : String := ""
  Warnings : List String := []
deriving DecidableEq, Repr

/-- Docker's `types.ContainerStartOptions`. -/
structure ContainerStartOptions where
  CheckpointID : String := ""
  CheckpointDir : String := ""
deriving DecidableEq, Repr

/-- Docker's `container.WaitCondition`. -/
inductive WaitCondition where
  | WaitConditionNotRunning
  | WaitConditionNextExit
  | WaitConditionRemoved
deriving DecidableEq, Repr

/-- Docker's `container.ContainerWaitOKBody`: the terminal status of a container. -/
structure ContainerWaitOKBody where
  Error : Option String := none
  StatusCode : Int := 0
deriving DecidableEq, Repr

/-- Docker's `types.ContainerLogsOptions`. -/
structure ContainerLogsOptions where
  ShowStdout : Bool := false
  ShowStderr : Bool := false
  Since : String := ""
  Until : String := ""
  Timestamps : Bool := false
  Follow : Bool := false
  Tail : String := ""
  Details : Bool := false
deriving DecidableEq, Repr

/-- Docker's `types.ContainerListOptions`. -/
structure ContainerListOptions where
  Quiet : Bool := false
  Size : Bool := false
  All : Bool := false
  Latest : Bool := false
  Since : String := ""
  Before : String := ""
  Limit : Int := 0
  Filters : List (String × List String) := []
deriving DecidableEq, Repr

/-- Docker's `types.Container`, restricted to its descriptive fields. -/
structure Container where
  ID : String := ""
  Names : List String := []
  Image : String := ""
  State : String := ""
  Status : String := ""
deriving DecidableEq, Repr

/-- An `io.ReadCloser` handed out by the daemon client: what `ioutil.ReadAll` gets out of it (the
bytes and the error, nil at a clean end of stream) and what `Close` answers. -/
structure ReadCloser where
  data : String := ""
  readErr : Option GoError := none
  closeErr : Option GoError := none
deriving DecidableEq, Repr

/-- The two channels returned by `ContainerWait`, as one `select` sees them: the value each channel
delivers, if it ever delivers one (for the error channel that value may be nil), and which of the
two the `select` takes when both are ready. -/
structure WaitChans where
  statusCh : Option ContainerWaitOKBody := none
  errCh : Option (Option GoError) := none
  errChFirst : Bool := false
deriving DecidableEq, Repr

/-! ## Effects -/

/-- A call of a method of the Docker client, with its arguments (the context is always
`context.Background()` and is left out). -/
inductive Call where
  | ImagePull (refStr : String) (options : ImagePullOptions)
  | ContainerCreate (config : Config) (hostConfig : Option HostConfig)
      (networkingConfig : Option NetworkingConfig) (containerName : String)
  | ContainerStart (containerID : String) (options : ContainerStartOptions)
  | ContainerWait (containerID : String) (condition : WaitCondition)
  | ContainerLogs (container : String) (options : ContainerLogsOptions)
  | ContainerStop (containerID : String) (timeout : Option Duration)
  | ContainerList (options : ContainerListOptions)
deriving DecidableEq, Repr

/-- An observable effect of the program. -/
inductive Event where
  | call (c : Call)
  | log (msg : String)
  | stdout (text : String)
  | readAll
  | close
deriving DecidableEq, Repr

/-- The outcome of running a piece of the program from a daemon state: the value it returns (none
when it blocks forever), the effects it had, in order, and the daemon state it leaves. -/
structure Step (σ α : Type) where
  result : Option α
  events : List Event
  daemon : σ
deriving DecidableEq, Repr

/-- A piece of the program, run against a daemon whose state has type `σ`. -/
def Prog (σ α : Type) : Type := σ → Step σ α

namespace Prog

variable {σ α β : Type}

/-- Returning a value has no effect. -/
def ret (a : α) : Prog σ α := fun s => ⟨some a, [], s⟩

/-- Sequencing: the second piece runs, from the state the first one left, only when the first one
returns. -/
def andThen (p : Prog σ α) (f : α → Prog σ β) : Prog σ β := fun s =>
  match (p s).result with
  | none => ⟨none, (p s).events, (p s).daemon⟩
  | some a =>
      ⟨(f a (p s).daemon).result, (p s).events ++ (f a (p s).daemon).events,
        (f a (p s).daemon).daemon⟩

/-- One effect that does not involve the daemon. -/
def emit (e : Event) : Prog σ Unit := fun s => ⟨some (), [e], s⟩

/-- One call of the daemon client: the call is recorded and the daemon answers and moves on. -/
def invoke (c : Call) (f : σ → α × σ) : Prog σ α := fun s =>
  ⟨some (f s).1, [.call c], (f s).2⟩

/-- Blocking forever. -/
def block : Prog σ α := fun s => ⟨none, [], s⟩

end Prog

instance (σ : Type) : Monad (Prog σ) where
  pure := Prog.ret
  bind := Prog.andThen

/-- The daemon calls among the effects of a run, in order. -/
def daemonCalls : List Event → List Call
  | [] => []
  | .call c :: es => c :: daemonCalls es
  | _ :: es => daemonCalls es

/-- What a run wrote to standard output. -/
def stdoutText : List Event → String
  | [] => ""
  | .stdout text :: es => text ++ stdoutText es
  | _ :: es => stdoutText es

/-! ## The Docker client -/

namespace client

/-- A stub of the Docker client `*client.Client`: for each method the program calls, what the daemon
answers to the arguments in a daemon state, and the state it moves to.  A method with a `(value,
error)` result answers the error, when it is not nil, and the value otherwise. -/
structure Client (σ : Type) where
  onImagePull : String → ImagePullOptions → σ → Except GoError ReadCloser × σ
  onContainerCreate : Config → Option HostConfig → Option NetworkingConfig → String → σ →
    Except GoError ContainerCreateCreatedBody × σ
  onContainerStart : String → ContainerStartOptions → σ → Option GoError × σ
  onContainerWait : String → WaitCondition → σ → WaitChans × σ
  onContainerLogs : String → ContainerLogsOptions → σ → Except GoError ReadCloser × σ
  onContainerStop : String → Option Duration → σ → Option GoError × σ
  onContainerList : ContainerListOptions → σ → Except GoError (List Container) × σ

variable {σ : Type}

def Client.ImagePull (c : Client σ) (refStr : String) (options : ImagePullOptions) :
    Prog σ (Except GoError ReadCloser) :=
  Prog.invoke (.ImagePull refStr options) (c.onImagePull refStr options)

def Client.ContainerCreate (c : Client σ) (config : Config) (hostConfig : Option HostConfig)
    (networkingConfig : Option NetworkingConfig) (containerName : String) :
    Prog σ (Except GoError ContainerCreateCreatedBody) :=
  Prog.invoke (.ContainerCreate config hostConfig networkingConfig containerName)
    (c.onContainerCreate config hostConfig networkingConfig containerName)

def Client.ContainerStart (c : Client σ) (containerID : String)
    (options : ContainerStartOptions) : Prog σ (Option GoError) :=
  Prog.invoke (.ContainerStart containerID options) (c.onContainerStart containerID options)

def Client.ContainerWait (c : Client σ) (containerID : String) (condition : WaitCondition) :
    Prog σ WaitChans :=
  Prog.invoke (.ContainerWait containerID condition) (c.onContainerWait containerID condition)

def Client.ContainerLogs (c : Client σ) (container : String) (options : ContainerLogsOptions) :
    Prog σ (Except GoError ReadCloser) :=
  Prog.invoke (.ContainerLogs container options) (c.onContainerLogs container options)

def Client.ContainerStop (c : Client σ) (containerID : String) (timeout : Option Duration) :
    Prog σ (Option GoError) :=
  Prog.invoke (.ContainerStop containerID timeout) (c.onContainerStop containerID timeout)

def Client.ContainerList (c : Client σ) (options : ContainerListOptions) :
    Prog σ (Except GoError (List Container)) :=
  Prog.invoke (.ContainerList options) (c.onContainerList options)

end client

namespace reference

/-- The error `ErrReferenceInvalidFormat` of Docker's reference package. -/
def ErrReferenceInvalidFormat : GoError := .base "invalid reference format"

/-- Modelled from the spec: the parsing of an image reference by the Docker client
(`reference.ParseNormalizedNamed`), which is not among the source files: nil when the reference
parses, the error otherwise.  An empty image name fails; which of the other references parse is
left to the parameter `grammar`. -/
def ParseNormalizedNamed (grammar : String → Bool) (s : String) : Option GoError :=
  if s = "" then some ErrReferenceInvalidFormat
  else if grammar s then none
  else some ErrReferenceInvalidFormat

end reference

namespace client

/-- Modelled from the spec: the Docker client made by `client.NewClientWithOpts`, which is not
among the source files, in front of a daemon: `ImagePull` parses the reference first and returns
the parse error without a request to the daemon; every other call goes to the daemon. -/
def NewClientWithOpts {σ : Type} (grammar : String → Bool) (daemon : Client σ) : Client σ :=
  { daemon with
    onImagePull := fun refStr options s =>
      match reference.ParseNormalizedNamed grammar refStr with
      | some err => (.error err, s)
      | none => daemon.onImagePull refStr options s }

end client

/-! ## Library calls with an effect -/

namespace log

/-- The call `log.Printf(format, args...)`, given the formatted line. -/
def Printf {σ : Type} (line : String) : Prog σ Unit :=
  Prog.emit (.log line)

end log

namespace fmt

/-- The call `fmt.Println(s)`: the text and a newline go to standard output. -/
def Println {σ : Type} (s : String) : Prog σ Unit :=
  Prog.emit (.stdout (s ++ "\n"))

end fmt

namespace ioutil

/-- The call `ioutil.ReadAll(r)`. -/
def ReadAll {σ : Type} (r : ReadCloser) : Prog σ (String × Option GoError) := fun s =>
  ⟨some (r.data, r.readErr), [.readAll], s⟩

end ioutil

/-- The call `r.Close()`. -/
def ReadCloser.Close {σ : Type} (r : ReadCloser) : Prog σ (Option GoError) := fun s =>
  ⟨some r.closeErr, [.close], s⟩

/-- The case a `select` on the two wait channels takes. -/
inductive Selected where
  | errCh (err : Option GoError)
  | statusCh (status : ContainerWaitOKBody)
deriving DecidableEq, Repr

/-- The case taken by the `select` of `RunContainerCmd` on the two wait channels, none when
neither channel ever delivers. -/
def selectCase (w : WaitChans) : Option Selected :=
  match w.errCh, w.statusCh with
  | none, none => none
  | some err, none => some (.errCh err)
  | none, some status => some (.statusCh status)
  | some err, some status => if w.errChFirst then some (.errCh err) else some (.statusCh status)

/-- The `select` statement: it blocks until one of the two channels delivers. -/
def select {σ : Type} (w : WaitChans) : Prog σ Selected :=
  match selectCase w with
  | none => Prog.block
  | some c => pure c

/-! ## `api.go` -/

/-- The type `api` of `api.go`. -/
structure api (σ : Type) where
  docker : client.Client σ

namespace api

variable {σ : Type}

def imagePull (a : api σ) (refStr : String) (options : ImagePullOptions) :
    Prog σ (Except GoError ReadCloser) := do
  log.Printf ("Pulling image " ++ refStr)
  a.docker.ImagePull refStr options

def containerCreate (a : api σ) (config : Config) (hostConfig : Option HostConfig)
    (networkingConfig : Option NetworkingConfig) (containerName : String) :
    Prog σ (Except GoError ContainerCreateCreatedBody) := do
  log.Printf ("Creating container " ++ config.Image)
  a.docker.ContainerCreate config hostConfig networkingConfig containerName

def containerStart (a : api σ) (containerID : String) (options : ContainerStartOptions) :
    Prog σ (Option GoError) := do
  log.Printf ("Starting container " ++ containerID)
  a.docker.ContainerStart containerID options

/-- The method `RunContainerBackground`: nil (none) or the wrapped error. -/
def RunContainerBackground (a : api σ) (image : String) : Prog σ (Option GoError) := do
  log.Printf ("Starting image " ++ image)
  match ← a.imagePull image {} with
  | .error err => pure (some (errors.Wrap err "pull image"))
  | .ok _ =>
  match ← a.containerCreate { Image := imageName image } none none "" with
  | .error err => pure (some (errors.Wrap err "create container"))
  | .ok resp =>
  match ← a.containerStart resp.ID {} with
  | some err => pure (some (errors.Wrap err "start container"))
  | none => pure none

/-- The method `RunContainerCmd`: the pair of the output text and the error. -/
def RunContainerCmd (a : api σ) (image : String) (cmd : List String) :
    Prog σ (String × Option GoError) := do
  match ← a.imagePull image {} with
  | .error err => pure ("", some (errors.Wrap err "pull image"))
  | .ok _ =>
  match ← a.containerCreate { Image := imageName image, Cmd := cmd, Tty := true } none none "" with
  | .error err => pure ("", some (errors.Wrap err "create container"))
  | .ok resp =>
  match ← a.containerStart resp.ID {} with
  | some err => pure ("", some (errors.Wrap err "start container"))
  | none =>
  let chans ← a.docker.ContainerWait resp.ID .WaitConditionNotRunning
  match ← select chans with
  | .errCh (some err) => pure ("", some (errors.Wrap err "wait for container"))
  | _ =>
  match ← a.docker.ContainerLogs resp.ID { ShowStdout := true } with
  | .error err => pure ("", some (errors.Wrap err "read container logs"))
  | .ok out =>
  let (outRead, err) ← ioutil.ReadAll out
  let ret : String × Option GoError :=
    match err with
    | some err => ("", some (errors.Wrap err "read command output"))
    | none => (outRead, none)
  -- the deferred function runs when the method returns
  match ← out.Close with
  | some err => log.Printf ("Error on closing container logs output: " ++ err.Error)
  | none => pure ()
  pure ret

/-- The method `StopContainer`. -/
def StopContainer (a : api σ) (id : String) : Prog σ (Option GoError) := do
  log.Printf ("Stopping container " ++ id)
  let tmp := stopTimeout
  a.docker.ContainerStop id (some tmp)

/-- The method `ListContainers`: the pair of the containers (nil, the empty list, on failure) and
the error. -/
def ListContainers (a : api σ) : Prog σ (List Container × Option GoError) := do
  match ← a.docker.ContainerList {} with
  | .error err => pure ([], some (errors.Wrap err "list containers"))
  | .ok containers => pure (containers, none)

end api

/-! ## `main.go` -/

section

variable {σ : Type}

def handleRunContainer (a : api σ) (img cmd : String) : Prog σ (Option GoError) :=
  if img = "" then pure (some (fmt.Errorf "image not provided"))
  else if cmd = "" then a.RunContainerBackground img
  else do
    let (out, err) ← a.RunContainerCmd img (strings.Split cmd " ")
    match err with
    | some err => pure (some err)
    | none =>
      fmt.Println out
      pure none

def handleListContainers (a : api σ) : Prog σ (Option GoError) := do
  let (cs, err) ← a.ListContainers
  match err with
  | some err => pure (some err)
  | none =>
    for c in cs do
      fmt.Println c.ID
    pure none

end

/-! ## Sample daemons -/

/-- A daemon stub that counts the calls it has answered and fails the call numbered `k` (every call
succeeds when `k` is none): a failing wait delivers the error on the error channel, a successful
one delivers a status. -/
def stubFailingAt (k : Option Nat) : client.Client Nat where
  onImagePull _ _ n := (if k = some n then .error (.base "boom") else .ok {}, n + 1)
  onContainerCreate _ _ _ _ n :=
    (if k = some n then .error (.base "boom") else .ok { ID := "c1" }, n + 1)
  onContainerStart _ _ n := (if k = some n then some (.base "boom") else none, n + 1)
  onContainerWait _ _ n :=
    (if k = some n then { errCh := some (some (.base "boom")) } else { statusCh := some {} }, n + 1)
  onContainerLogs _ _ n :=
    (if k = some n then .error (.base "boom") else .ok { data := "hi\n" }, n + 1)
  onContainerStop _ _ n := (if k = some n then some (.base "boom") else none, n + 1)
  onContainerList _ n :=
    (if k = some n then .error (.base "boom") else .ok [{ ID := "a" }, { ID := "b" }], n + 1)

/-- A daemon stub whose calls all succeed and whose wait channels never deliver. -/
def stubNeverExits : client.Client Nat :=
  { stubFailingAt none with onContainerWait := fun _ _ n => ({}, n + 1) }

/-! ## Splitting at a one-character separator -/

namespace strings

theorem genSplit_one_cons (x c : Char) (cs : List Char) :
    genSplit [x] (c :: cs) 0 =
      if c = x then [] :: genSplit [x] cs 0 else consHead c (genSplit [x] cs 0) := by
  by_cases h : c = x
  · subst h
    simp [genSplit, List.isPrefixOf]
  · have h2 : ¬ x = c := fun e => h e.symm
    simp only [genSplit, List.isPrefixOf, h, h2, beq_iff_eq, Bool.and_true, if_false,
      Bool.false_eq_true]

theorem genSplit_one_ne_nil (x : Char) (l : List Char) : genSplit [x] l 0 ≠ [] := by
  induction l with
  | nil => simp [genSplit]
  | cons c cs ih =>
    rw [genSplit_one_cons]
    split
    · simp
    · cases h : genSplit [x] cs 0 with
      | nil => exact absurd h ih
      | cons t ts => simp [consHead]

theorem genSplit_one_not_mem (x : Char) (l : List Char) :
    ∀ t ∈ genSplit [x] l 0, x ∉ t := by
  induction l with
  | nil => simp [genSplit]
  | cons c cs ih =>
    rw [genSplit_one_cons]
    split
    · intro t ht
      rcases List.mem_cons.1 ht with rfl | ht
      · simp
      · exact ih t ht
    · rename_i hc
      cases h : genSplit [x] cs 0 with
      | nil => exact absurd h (genSplit_one_ne_nil x cs)
      | cons t ts =>
        rw [h] at ih
        intro u hu
        simp only [consHead, List.mem_cons] at hu
        rcases hu with rfl | hu
        · intro hx
          rcases List.mem_cons.1 hx with e | hx
          · exact hc e.symm
          · exact ih t (List.mem_cons_self _ _) hx
        · exact ih u (List.mem_cons_of_mem _ hu)

theorem genSplit_one_length (x : Char) (l : List Char) :
    (genSplit [x] l 0).length = l.count x + 1 := by
  induction l with
  | nil => simp [genSplit]
  | cons c cs ih =>
    rw [genSplit_one_cons]
    split
    · rename_i hc
      subst hc
      simp [ih]
    · rename_i hc
      have hc2 : ¬ (c == x) = true := by simpa using hc
      cases h : genSplit [x] cs 0 with
      | nil => exact absurd h (genSplit_one_ne_nil x cs)
      | cons t ts =>
        rw [h] at ih
        simp only [consHead, List.length_cons] at ih ⊢
        rw [ih, List.count_cons]
        simp [hc]

theorem genSplit_one_intercalate (x : Char) (l : List Char) :
    List.intercalate [x] (genSplit [x] l 0) = l := by
  induction l with
  | nil => simp [genSplit, List.intercalate]
  | cons c cs ih =>
    rw [genSplit_one_cons]
    cases h : genSplit [x] cs 0 with
    | nil => exact absurd h (genSplit_one_ne_nil x cs)
    | cons t ts =>
      rw [h] at ih
      split
      · rename_i hc
        subst hc
        rw [← ih]
        simp [List.intercalate, List.intersperse]
      · rw [← ih]
        cases ts <;> simp [consHead, List.intercalate, List.intersperse]

theorem genSplit_one_of_not_mem (x : Char) (l : List Char) (h : x ∉ l) :
    genSplit [x] l 0 = [l] := by
  induction l with
  | nil => simp [genSplit]
  | cons c cs ih =>
    rw [genSplit_one_cons]
    have hc : ¬ c = x := fun e => h (by simp [e])
    have hcs : x ∉ cs := fun e => h (List.mem_cons_of_mem _ e)
    rw [if_neg hc, ih hcs]
    rfl

theorem genSplit_one_getLast (x : Char) (l : List Char) (h : x ∈ l) :
    ∃ pre last, l = pre ++ x :: last ∧ (genSplit [x] l 0).getLast? = some last := by
  induction l with
  | nil => simp at h
  | cons c cs ih =>
    by_cases hx : x ∈ cs
    · obtain ⟨pre, last, hpre, hlast⟩ := ih hx
      refine ⟨c :: pre, last, by simp [hpre], ?_⟩
      have hlen := genSplit_one_length x cs
      have hpos : 0 < cs.count x := List.count_pos_iff.2 hx
      rw [genSplit_one_cons]
      cases hg : genSplit [x] cs 0 with
      | nil => exact absurd hg (genSplit_one_ne_nil x cs)
      | cons t ts =>
        rw [hg] at hlen hlast
        cases ts with
        | nil => simp at hlen; omega
        | cons u us =>
          split
          · rw [List.getLast?_cons_cons]
            exact hlast
          · simp only [consHead]
            rw [List.getLast?_cons_cons] at hlast ⊢
            exact hlast
    · have hc : c = x := by
        rcases List.mem_cons.1 h with e | e
        · exact e.symm
        · exact absurd e hx
      refine ⟨[], cs, by simp [hc], ?_⟩
      subst hc
      simp [genSplit_one_cons, genSplit_one_of_not_mem _ _ hx]

end strings

theorem get_last_eq (L : List String) :
    (if h : L.length = 0 then "" else L.get ⟨L.length - 1, by omega⟩) = (L.getLast?).getD "" := by
  split
  · rename_i h0
    rw [List.length_eq_zero] at h0
    simp [h0]
  · rw [List.getLast?_eq_getElem?, List.getElem?_eq_getElem (by omega)]
    simp

theorem imageName_eq_getLast (image : String) :
    imageName image = ((strings.Split image "/").getLast?).getD "" :=
  get_last_eq (strings.Split image "/")

theorem Split_slash (image : String) :
    strings.Split image "/" = (strings.genSplit ['/'] image.data 0).map String.mk := by
  simp [strings.Split]

/-- C1: the short name of an image reference is the text after its last slash when it has one, the
reference itself when it has none, and empty for the empty reference. -/
theorem imageName_spec (s : String) :
    ('/' ∈ s.data →
      ∃ pre : String, s = pre ++ "/" ++ imageName s ∧ '/' ∉ (imageName s).data) ∧
    ('/' ∉ s.data → imageName s = s) ∧
    (s = "" → imageName s = "") ∧
    imageName "registry.example.com/library/alpine" = "alpine" := by
  refine ⟨?_, ?_, ?_, by decide⟩
  · intro h
    obtain ⟨pre, last, hpre, hlast⟩ := strings.genSplit_one_getLast '/' s.data h
    have hn : imageName s = String.mk last := by
      rw [imageName_eq_getLast, Split_slash, List.getLast?_map, hlast]
      rfl
    refine ⟨String.mk pre, ?_, ?_⟩
    · apply String.ext
      rw [hn]
      simp [String.data_append, hpre]
    · rw [hn]
      have := strings.genSplit_one_not_mem '/' s.data last (List.mem_of_getLast?_eq_some hlast)
      simpa using this
  · intro h
    rw [imageName_eq_getLast, Split_slash, strings.genSplit_one_of_not_mem _ _ h]
    rfl
  · intro h
    subst h
    decide

/-- A concrete instance for the short name: a reference with slashes, one without, the empty one. -/
theorem imageName_spec_witness :
    ('/' ∈ "docker.io/library/alpine".data ∧
      ∃ pre : String, "docker.io/library/alpine" = pre ++ "/" ++ imageName "docker.io/library/alpine" ∧
        '/' ∉ (imageName "docker.io/library/alpine").data) ∧
    ('/' ∉ "alpine".data ∧ imageName "alpine" = "alpine") ∧
    ("" = "" ∧ imageName "" = "") :=
  ⟨⟨by decide, (imageName_spec "docker.io/library/alpine").1 (by decide)⟩,
   ⟨by decide, (imageName_spec "alpine").2.1 (by decide)⟩,
   ⟨rfl, (imageName_spec "").2.2.1 rfl⟩⟩

/-! ## Running pieces of the program -/

section

variable {σ α β : Type}

theorem Prog.bind_run (p : Prog σ α) (f : α → Prog σ β) (s : σ) :
    (p >>= f) s = Prog.andThen p f s := rfl

theorem Prog.pure_run (x : α) (s : σ) : (pure x : Prog σ α) s = ⟨some x, [], s⟩ := rfl

theorem daemonCalls_append (xs ys : List Event) :
    daemonCalls (xs ++ ys) = daemonCalls xs ++ daemonCalls ys := by
  induction xs with
  | nil => rfl
  | cons e es ih => cases e <;> simp [daemonCalls, ih]

end

/-! ## The run operations -/

section

variable {σ : Type}

/-- C3: when pull, create and start succeed, the background run makes exactly these three daemon
calls (the pull with the full reference, the creation with the short name, no command and no
terminal, the start of the created container), so neither a wait nor a log read, and returns
nil. -/
theorem RunContainerBackground_success (a : api σ) (image : String) (s s1 s2 s3 : σ)
    (rc : ReadCloser) (resp : ContainerCreateCreatedBody)
    (hpull : a.docker.onImagePull image {} s = (.ok rc, s1))
    (hcreate : a.docker.onContainerCreate { Image := imageName image } none none "" s1 =
      (.ok resp, s2))
    (hstart : a.docker.onContainerStart resp.ID {} s2 = (none, s3)) :
    (a.RunContainerBackground image s).result = some none ∧
    daemonCalls (a.RunContainerBackground image s).events =
      [.ImagePull image {},
       .ContainerCreate { Image := imageName image, Cmd := [], Tty := false } none none "",
       .ContainerStart resp.ID {}] ∧
    (∀ c ∈ daemonCalls (a.RunContainerBackground image s).events,
      (∀ id cond, c ≠ .ContainerWait id cond) ∧ (∀ id opts, c ≠ .ContainerLogs id opts)) ∧
    (a.RunContainerBackground image s).daemon = s3 := by
  have hev : daemonCalls (a.RunContainerBackground image s).events =
      [.ImagePull image {},
       .ContainerCreate { Image := imageName image, Cmd := [], Tty := false } none none "",
       .ContainerStart resp.ID {}] := by
    simp [api.RunContainerBackground, api.imagePull, api.containerCreate, api.containerStart,
      bind, Prog.andThen, pure, Prog.ret, log.Printf, Prog.emit, Prog.invoke,
      client.Client.ImagePull, client.Client.ContainerCreate, client.Client.ContainerStart,
      hpull, hcreate, hstart, daemonCalls]
  refine ⟨?_, hev, ?_, ?_⟩
  · simp [api.RunContainerBackground, api.imagePull, api.containerCreate, api.containerStart,
      bind, Prog.andThen, pure, Prog.ret, log.Printf, Prog.emit, Prog.invoke,
      client.Client.ImagePull, client.Client.ContainerCreate, client.Client.ContainerStart,
      hpull, hcreate, hstart]
  · rw [hev]
    intro c hc
    simp only [List.mem_cons, List.mem_singleton, List.not_mem_nil, or_false] at hc
    rcases hc with rfl | rfl | rfl <;> simp
  · simp [api.RunContainerBackground, api.imagePull, api.containerCreate, api.containerStart,
      bind, Prog.andThen, pure, Prog.ret, log.Printf, Prog.emit, Prog.invoke,
      client.Client.ImagePull, client.Client.ContainerCreate, client.Client.ContainerStart,
      hpull, hcreate, hstart]

/-- A concrete instance for the background run: the registry reference on a daemon whose calls all
succeed. -/
theorem RunContainerBackground_success_witness :
    (api.RunContainerBackground ⟨stubFailingAt none⟩ "registry.example.com/library/alpine" 0).result
      = some none ∧
    daemonCalls
      (api.RunContainerBackground ⟨stubFailingAt none⟩ "registry.example.com/library/alpine"
        0).events =
      [.ImagePull "registry.example.com/library/alpine" {},
       .ContainerCreate { Image := "alpine", Cmd := [], Tty := false } none none "",
       .ContainerStart "c1" {}] :=
  have h := RunContainerBackground_success ⟨stubFailingAt none⟩
    "registry.example.com/library/alpine" 0 1 2 3 {} { ID := "c1" } rfl rfl rfl
  ⟨h.1, h.2.1⟩

/-- C4: when every daemon call succeeds and the wait delivers a terminal status, the run with a
command creates the container with the short name, the command and a terminal, waits on the
created container for the not-running condition after the start, reads its logs with only the
standard-output option set, and returns the whole content of the stream and no error. -/
theorem RunContainerCmd_success (a : api σ) (image : String) (cmd : List String)
    (s s1 s2 s3 s4 s5 : σ) (rc out : ReadCloser) (resp : ContainerCreateCreatedBody)
    (chans : WaitChans) (status : ContainerWaitOKBody)
    (hpull : a.docker.onImagePull image {} s = (.ok rc, s1))
    (hcreate : a.docker.onContainerCreate { Image := imageName image, Cmd := cmd, Tty := true }
      none none "" s1 = (.ok resp, s2))
    (hstart : a.docker.onContainerStart resp.ID {} s2 = (none, s3))
    (hwait : a.docker.onContainerWait resp.ID .WaitConditionNotRunning s3 = (chans, s4))
    (hsel : selectCase chans = some (.statusCh status))
    (hlogs : a.docker.onContainerLogs resp.ID { ShowStdout := true } s4 = (.ok out, s5))
    (hread : out.readErr = none) :
    (a.RunContainerCmd image cmd s).result = some (out.data, none) ∧
    daemonCalls (a.RunContainerCmd image cmd s).events =
      [.ImagePull image {},
       .ContainerCreate { Image := imageName image, Cmd := cmd, Tty := true } none none "",
       .ContainerStart resp.ID {},
       .ContainerWait resp.ID .WaitConditionNotRunning,
       .ContainerLogs resp.ID
         { ShowStdout := true
           ShowStderr := false
           Since := ""
           Until := ""
           Timestamps := false
           Follow := false
           Tail := ""
           Details := false }] ∧
    (a.RunContainerCmd image cmd s).daemon = s5 := by
  simp [api.RunContainerCmd, api.imagePull, api.containerCreate, api.containerStart,
    bind, Prog.andThen, pure, Prog.ret, log.Printf, Prog.emit, Prog.invoke,
    client.Client.ImagePull, client.Client.ContainerCreate, client.Client.ContainerStart,
    client.Client.ContainerWait, client.Client.ContainerLogs, select, ioutil.ReadAll,
    ReadCloser.Close, hpull, hcreate, hstart, hwait, hsel, hlogs, hread, daemonCalls]
  cases out.closeErr <;> simp [Prog.andThen, Prog.ret, Prog.emit, daemonCalls]

/-- A concrete instance for the run with a command: image "alpine" and the tokens of "echo hi" on a
daemon whose calls all succeed. -/
theorem RunContainerCmd_success_witness :
    (api.RunContainerCmd ⟨stubFailingAt none⟩ "alpine" ["echo", "hi"] 0).result =
      some ("hi\n", none) ∧
    daemonCalls (api.RunContainerCmd ⟨stubFailingAt none⟩ "alpine" ["echo", "hi"] 0).events =
      [.ImagePull "alpine" {},
       .ContainerCreate { Image := "alpine", Cmd := ["echo", "hi"], Tty := true } none none "",
       .ContainerStart "c1" {},
       .ContainerWait "c1" .WaitConditionNotRunning,
       .ContainerLogs "c1" { ShowStdout := true }] :=
  have h := RunContainerCmd_success ⟨stubFailingAt none⟩ "alpine" ["echo", "hi"] 0 1 2 3 4 5 {}
    { data := "hi\n" } { ID := "c1" } { statusCh := some {} } {} rfl rfl rfl rfl rfl rfl rfl
  ⟨h.1, h.2.1⟩

end

section

variable {σ : Type}

/-- C2: both run operations call pull, then create, then start, in that order; when one of these
stages fails with a daemon error, the failing call is the last daemon call and the operation
returns that error wrapped with the label of the stage. -/
theorem run_stages_in_order (a : api σ) (image : String) (cmd : List String) (s : σ) :
    -- the calls begin with pull, create, start, as far as they go
    (daemonCalls (a.RunContainerBackground image s).events = [.ImagePull image {}] ∨
      daemonCalls (a.RunContainerBackground image s).events =
        [.ImagePull image {}, .ContainerCreate { Image := imageName image } none none ""] ∨
      ∃ id rest, daemonCalls (a.RunContainerBackground image s).events =
        .ImagePull image {} :: .ContainerCreate { Image := imageName image } none none "" ::
          .ContainerStart id {} :: rest) ∧
    (daemonCalls (a.RunContainerCmd image cmd s).events = [.ImagePull image {}] ∨
      daemonCalls (a.RunContainerCmd image cmd s).events =
        [.ImagePull image {},
         .ContainerCreate { Image := imageName image, Cmd := cmd, Tty := true } none none ""] ∨
      ∃ id rest, daemonCalls (a.RunContainerCmd image cmd s).events =
        .ImagePull image {} ::
          .ContainerCreate { Image := imageName image, Cmd := cmd, Tty := true } none none "" ::
          .ContainerStart id {} :: rest) ∧
    -- a failing pull
    (∀ e s1, a.docker.onImagePull image {} s = (.error e, s1) →
      ((a.RunContainerBackground image s).result = some (some (GoError.withMessage e "pull image")) ∧
        daemonCalls (a.RunContainerBackground image s).events = [.ImagePull image {}] ∧
        (a.RunContainerBackground image s).daemon = s1) ∧
      ((a.RunContainerCmd image cmd s).result = some ("", some (GoError.withMessage e "pull image")) ∧
        daemonCalls (a.RunContainerCmd image cmd s).events = [.ImagePull image {}] ∧
        (a.RunContainerCmd image cmd s).daemon = s1)) ∧
    -- a failing create
    (∀ rc s1 e s2, a.docker.onImagePull image {} s = (.ok rc, s1) →
      a.docker.onContainerCreate { Image := imageName image } none none "" s1 = (.error e, s2) →
      (a.RunContainerBackground image s).result =
        some (some (GoError.withMessage e "create container")) ∧
      daemonCalls (a.RunContainerBackground image s).events =
        [.ImagePull image {}, .ContainerCreate { Image := imageName image } none none ""] ∧
      (a.RunContainerBackground image s).daemon = s2) ∧
    (∀ rc s1 e s2, a.docker.onImagePull image {} s = (.ok rc, s1) →
      a.docker.onContainerCreate { Image := imageName image, Cmd := cmd, Tty := true }
        none none "" s1 = (.error e, s2) →
      (a.RunContainerCmd image cmd s).result =
        some ("", some (GoError.withMessage e "create container")) ∧
      daemonCalls (a.RunContainerCmd image cmd s).events =
        [.ImagePull image {},
         .ContainerCreate { Image := imageName image, Cmd := cmd, Tty := true } none none ""] ∧
      (a.RunContainerCmd image cmd s).daemon = s2) ∧
    -- a failing start
    (∀ rc s1 resp s2 e s3, a.docker.onImagePull image {} s = (.ok rc, s1) →
      a.docker.onContainerCreate { Image := imageName image } none none "" s1 = (.ok resp, s2) →
      a.docker.onContainerStart resp.ID {} s2 = (some e, s3) →
      (a.RunContainerBackground image s).result =
        some (some (GoError.withMessage e "start container")) ∧
      daemonCalls (a.RunContainerBackground image s).events =
        [.ImagePull image {}, .ContainerCreate { Image := imageName image } none none "",
         .ContainerStart resp.ID {}] ∧
      (a.RunContainerBackground image s).daemon = s3) ∧
    (∀ rc s1 resp s2 e s3, a.docker.onImagePull image {} s = (.ok rc, s1) →
      a.docker.onContainerCreate { Image := imageName image, Cmd := cmd, Tty := true }
        none none "" s1 = (.ok resp, s2) →
      a.docker.onContainerStart resp.ID {} s2 = (some e, s3) →
      (a.RunContainerCmd image cmd s).result =
        some ("", some (GoError.withMessage e "start container")) ∧
      daemonCalls (a.RunContainerCmd image cmd s).events =
        [.ImagePull image {},
         .ContainerCreate { Image := imageName image, Cmd := cmd, Tty := true } none none "",
         .ContainerStart resp.ID {}] ∧
      (a.RunContainerCmd image cmd s).daemon = s3) := by
  refine ⟨?_, ?_, ?_, ?_, ?_, ?_, ?_⟩
  · rcases hp : a.docker.onImagePull image {} s with ⟨_ | rc, s1⟩
    · left
      simp [api.RunContainerBackground, api.imagePull, bind, Prog.andThen, pure, Prog.ret, errors.Wrap,
        log.Printf, Prog.emit, Prog.invoke, client.Client.ImagePull, hp, daemonCalls]
    · right
      rcases hc : a.docker.onContainerCreate { Image := imageName image } none none "" s1 with
        ⟨_ | resp, s2⟩
      · left
        simp [api.RunContainerBackground, api.imagePull, api.containerCreate, bind,
          Prog.andThen, pure, Prog.ret, errors.Wrap, log.Printf, Prog.emit, Prog.invoke,
          client.Client.ImagePull, client.Client.ContainerCreate, hp, hc, daemonCalls]
      · right
        refine ⟨resp.ID, [], ?_⟩
        rcases hs : a.docker.onContainerStart resp.ID {} s2 with ⟨_ | e, s3⟩ <;>
        simp [api.RunContainerBackground, api.imagePull, api.containerCreate,
          api.containerStart, bind, Prog.andThen, pure, Prog.ret, errors.Wrap, log.Printf, Prog.emit,
          Prog.invoke, client.Client.ImagePull, client.Client.ContainerCreate,
          client.Client.ContainerStart, hp, hc, hs, daemonCalls]
  · rcases hp : a.docker.onImagePull image {} s with ⟨_ | rc, s1⟩
    · left
      simp [api.RunContainerCmd, api.imagePull, bind, Prog.andThen, pure, Prog.ret, errors.Wrap,
        log.Printf, Prog.emit, Prog.invoke, client.Client.ImagePull, hp, daemonCalls]
    · right
      rcases hc : a.docker.onContainerCreate { Image := imageName image, Cmd := cmd, Tty := true }
        none none "" s1 with ⟨_ | resp, s2⟩
      · left
        simp [api.RunContainerCmd, api.imagePull, api.containerCreate, bind,
          Prog.andThen, pure, Prog.ret, errors.Wrap, log.Printf, Prog.emit, Prog.invoke,
          client.Client.ImagePull, client.Client.ContainerCreate, hp, hc, daemonCalls]
      · right
        refine ⟨resp.ID, ?_⟩
        simp only [api.RunContainerCmd, api.imagePull, api.containerCreate,
          api.containerStart, bind, Prog.andThen, pure, Prog.ret, errors.Wrap, log.Printf, Prog.emit,
          Prog.invoke, client.Client.ImagePull, client.Client.ContainerCreate,
          client.Client.ContainerStart, hp, hc, daemonCalls_append, daemonCalls,
          List.append_assoc, List.cons_append, List.nil_append]
        exact ⟨_, rfl⟩
  · intro e s1 hp
    simp [errors.Wrap, api.RunContainerBackground, api.RunContainerCmd, api.imagePull, bind, Prog.andThen,
      pure, Prog.ret, log.Printf, Prog.emit, Prog.invoke, client.Client.ImagePull, hp,
      daemonCalls]
  · intro rc s1 e s2 hp hc
    simp [errors.Wrap, api.RunContainerBackground, api.imagePull, api.containerCreate, bind, Prog.andThen,
      pure, Prog.ret, log.Printf, Prog.emit, Prog.invoke, client.Client.ImagePull,
      client.Client.ContainerCreate, hp, hc, daemonCalls]
  · intro rc s1 e s2 hp hc
    simp [errors.Wrap, api.RunContainerCmd, api.imagePull, api.containerCreate, bind, Prog.andThen,
      pure, Prog.ret, log.Printf, Prog.emit, Prog.invoke, client.Client.ImagePull,
      client.Client.ContainerCreate, hp, hc, daemonCalls]
  · intro rc s1 resp s2 e s3 hp hc hs
    simp [api.RunContainerBackground, api.imagePull, api.containerCreate, api.containerStart,
      bind, Prog.andThen, pure, Prog.ret, errors.Wrap, log.Printf, Prog.emit, Prog.invoke,
      client.Client.ImagePull, client.Client.ContainerCreate, client.Client.ContainerStart,
      hp, hc, hs, daemonCalls]
  · intro rc s1 resp s2 e s3 hp hc hs
    simp [api.RunContainerCmd, api.imagePull, api.containerCreate, api.containerStart,
      bind, Prog.andThen, pure, Prog.ret, errors.Wrap, log.Printf, Prog.emit, Prog.invoke,
      client.Client.ImagePull, client.Client.ContainerCreate, client.Client.ContainerStart,
      hp, hc, hs, daemonCalls]

/-- Concrete instances for the stage failures: daemons that fail the pull, the create, the start. -/
theorem run_stages_in_order_witness :
    ((api.RunContainerBackground ⟨stubFailingAt (some 0)⟩ "alpine" 0).result =
        some (some (GoError.withMessage (.base "boom") "pull image")) ∧
      (api.RunContainerCmd ⟨stubFailingAt (some 0)⟩ "alpine" ["ls"] 0).result =
        some ("", some (GoError.withMessage (.base "boom") "pull image"))) ∧
    ((api.RunContainerBackground ⟨stubFailingAt (some 1)⟩ "alpine" 0).result =
        some (some (GoError.withMessage (.base "boom") "create container")) ∧
      daemonCalls (api.RunContainerBackground ⟨stubFailingAt (some 1)⟩ "alpine" 0).events =
        [.ImagePull "alpine" {}, .ContainerCreate { Image := "alpine" } none none ""]) ∧
    ((api.RunContainerCmd ⟨stubFailingAt (some 1)⟩ "alpine" ["ls"] 0).result =
        some ("", some (GoError.withMessage (.base "boom") "create container"))) ∧
    ((api.RunContainerBackground ⟨stubFailingAt (some 2)⟩ "alpine" 0).result =
        some (some (GoError.withMessage (.base "boom") "start container"))) ∧
    ((api.RunContainerCmd ⟨stubFailingAt (some 2)⟩ "alpine" ["ls"] 0).result =
        some ("", some (GoError.withMessage (.base "boom") "start container")) ∧
      daemonCalls (api.RunContainerCmd ⟨stubFailingAt (some 2)⟩ "alpine" ["ls"] 0).events =
        [.ImagePull "alpine" {},
         .ContainerCreate { Image := "alpine", Cmd := ["ls"], Tty := true } none none "",
         .ContainerStart "c1" {}]) :=
  have h0 := (run_stages_in_order ⟨stubFailingAt (some 0)⟩ "alpine" ["ls"] 0).2.2.1
    (.base "boom") 1 rfl
  have h1 := (run_stages_in_order ⟨stubFailingAt (some 1)⟩ "alpine" ["ls"] 0).2.2.2.1
    {} 1 (.base "boom") 2 rfl rfl
  have h2 := (run_stages_in_order ⟨stubFailingAt (some 1)⟩ "alpine" ["ls"] 0).2.2.2.2.1
    {} 1 (.base "boom") 2 rfl rfl
  have h3 := (run_stages_in_order ⟨stubFailingAt (some 2)⟩ "alpine" ["ls"] 0).2.2.2.2.2.1
    {} 1 { ID := "c1" } 2 (.base "boom") 3 rfl rfl rfl
  have h4 := (run_stages_in_order ⟨stubFailingAt (some 2)⟩ "alpine" ["ls"] 0).2.2.2.2.2.2
    {} 1 { ID := "c1" } 2 (.base "boom") 3 rfl rfl rfl
  ⟨⟨h0.1.1, h0.2.1⟩, ⟨h1.1, h1.2.1⟩, h2.1, h3.1, ⟨h4.1, h4.2.1⟩⟩

end

section

variable {σ : Type}

/-- C5: once pull, create and start have succeeded, the run with a command returns only when one of
the two wait channels has delivered (a status, or a value of the error channel); and when the
select receives an error that is not nil, the wait is the last daemon call (no log read) and the
operation returns the empty text with that error wrapped as "wait for container". -/
theorem RunContainerCmd_wait (a : api σ) (image : String) (cmd : List String)
    (s s1 s2 s3 s4 : σ) (rc : ReadCloser) (resp : ContainerCreateCreatedBody) (chans : WaitChans)
    (hpull : a.docker.onImagePull image {} s = (.ok rc, s1))
    (hcreate : a.docker.onContainerCreate { Image := imageName image, Cmd := cmd, Tty := true }
      none none "" s1 = (.ok resp, s2))
    (hstart : a.docker.onContainerStart resp.ID {} s2 = (none, s3))
    (hwait : a.docker.onContainerWait resp.ID .WaitConditionNotRunning s3 = (chans, s4)) :
    ((a.RunContainerCmd image cmd s).result ≠ none →
      (∃ status, chans.statusCh = some status) ∨ (∃ err, chans.errCh = some err)) ∧
    (chans.statusCh = none ∧ chans.errCh = none →
      (a.RunContainerCmd image cmd s).result = none ∧
      daemonCalls (a.RunContainerCmd image cmd s).events =
        [.ImagePull image {},
         .ContainerCreate { Image := imageName image, Cmd := cmd, Tty := true } none none "",
         .ContainerStart resp.ID {},
         .ContainerWait resp.ID .WaitConditionNotRunning]) ∧
    (∀ e, selectCase chans = some (.errCh (some e)) →
      (a.RunContainerCmd image cmd s).result =
        some ("", some (GoError.withMessage e "wait for container")) ∧
      daemonCalls (a.RunContainerCmd image cmd s).events =
        [.ImagePull image {},
         .ContainerCreate { Image := imageName image, Cmd := cmd, Tty := true } none none "",
         .ContainerStart resp.ID {},
         .ContainerWait resp.ID .WaitConditionNotRunning] ∧
      (∀ id opts, Call.ContainerLogs id opts ∉ daemonCalls (a.RunContainerCmd image cmd s).events) ∧
      (a.RunContainerCmd image cmd s).daemon = s4) := by
  have hblock : chans.statusCh = none ∧ chans.errCh = none →
      (a.RunContainerCmd image cmd s).result = none ∧
      daemonCalls (a.RunContainerCmd image cmd s).events =
        [.ImagePull image {},
         .ContainerCreate { Image := imageName image, Cmd := cmd, Tty := true } none none "",
         .ContainerStart resp.ID {},
         .ContainerWait resp.ID .WaitConditionNotRunning] := by
    rintro ⟨h1, h2⟩
    have hsel : selectCase chans = none := by simp [errors.Wrap, selectCase, h1, h2]
    simp [api.RunContainerCmd, api.imagePull, api.containerCreate, api.containerStart,
      bind, Prog.andThen, pure, Prog.ret, errors.Wrap, log.Printf, Prog.emit, Prog.invoke, Prog.block,
      client.Client.ImagePull, client.Client.ContainerCreate, client.Client.ContainerStart,
      client.Client.ContainerWait, select, hpull, hcreate, hstart, hwait, hsel, daemonCalls]
  refine ⟨?_, hblock, ?_⟩
  · intro hres
    by_contra hno
    push_neg at hno
    have h1 : chans.statusCh = none := by
      cases h : chans.statusCh with
      | none => rfl
      | some st => exact absurd h (hno.1 st)
    have h2 : chans.errCh = none := by
      cases h : chans.errCh with
      | none => rfl
      | some v => exact absurd h (hno.2 v)
    exact hres (hblock ⟨h1, h2⟩).1
  · intro e hsel
    have hev : daemonCalls (a.RunContainerCmd image cmd s).events =
        [.ImagePull image {},
         .ContainerCreate { Image := imageName image, Cmd := cmd, Tty := true } none none "",
         .ContainerStart resp.ID {},
         .ContainerWait resp.ID .WaitConditionNotRunning] := by
      simp [api.RunContainerCmd, api.imagePull, api.containerCreate, api.containerStart,
        bind, Prog.andThen, pure, Prog.ret, errors.Wrap, log.Printf, Prog.emit, Prog.invoke,
        client.Client.ImagePull, client.Client.ContainerCreate, client.Client.ContainerStart,
        client.Client.ContainerWait, select, hpull, hcreate, hstart, hwait, hsel, daemonCalls]
    refine ⟨?_, hev, ?_, ?_⟩
    · simp [api.RunContainerCmd, api.imagePull, api.containerCreate, api.containerStart,
        bind, Prog.andThen, pure, Prog.ret, errors.Wrap, log.Printf, Prog.emit, Prog.invoke,
        client.Client.ImagePull, client.Client.ContainerCreate, client.Client.ContainerStart,
        client.Client.ContainerWait, select, hpull, hcreate, hstart, hwait, hsel]
    · intro id opts
      rw [hev]
      simp
    · simp [api.RunContainerCmd, api.imagePull, api.containerCreate, api.containerStart,
        bind, Prog.andThen, pure, Prog.ret, errors.Wrap, log.Printf, Prog.emit, Prog.invoke,
        client.Client.ImagePull, client.Client.ContainerCreate, client.Client.ContainerStart,
        client.Client.ContainerWait, select, hpull, hcreate, hstart, hwait, hsel]

/-- Concrete instances for the wait: a wait that never delivers blocks the operation, and a wait
that delivers an error ends it without a log read. -/
theorem RunContainerCmd_wait_witness :
    (api.RunContainerCmd ⟨stubNeverExits⟩ "alpine" ["ls"] 0).result = none ∧
    ((api.RunContainerCmd ⟨stubFailingAt (some 3)⟩ "alpine" ["ls"] 0).result =
        some ("", some (GoError.withMessage (.base "boom") "wait for container")) ∧
      daemonCalls (api.RunContainerCmd ⟨stubFailingAt (some 3)⟩ "alpine" ["ls"] 0).events =
        [.ImagePull "alpine" {},
         .ContainerCreate { Image := "alpine", Cmd := ["ls"], Tty := true } none none "",
         .ContainerStart "c1" {},
         .ContainerWait "c1" .WaitConditionNotRunning]) :=
  have h0 := (RunContainerCmd_wait ⟨stubNeverExits⟩ "alpine" ["ls"] 0 1 2 3 4 {} { ID := "c1" }
    {} rfl rfl rfl rfl).2.1 ⟨rfl, rfl⟩
  have h1 := (RunContainerCmd_wait ⟨stubFailingAt (some 3)⟩ "alpine" ["ls"] 0 1 2 3 4 {}
    { ID := "c1" } { errCh := some (some (.base "boom")) } rfl rfl rfl rfl).2.2 (.base "boom") rfl
  ⟨h0.1, h1.1, h1.2.1⟩

/-- C6: stopping a container makes exactly one daemon call, the stop of that container with a
grace period that is present and is thirty seconds (thirty thousand million nanoseconds, which
fits the 64-bit duration type), whatever the daemon answers; the answer is returned as it is. -/
theorem StopContainer_call (a : api σ) (id : String) (s : σ) :
    daemonCalls (a.StopContainer id s).events = [.ContainerStop id (some stopTimeout)] ∧
    stopTimeout = 30 * time.Second ∧
    stopTimeout = 30000000000 ∧
    (0 < stopTimeout ∧ stopTimeout < 2 ^ 63) ∧
    (a.StopContainer id s).result = some (a.docker.onContainerStop id (some stopTimeout) s).1 ∧
    (a.StopContainer id s).daemon = (a.docker.onContainerStop id (some stopTimeout) s).2 := by
  refine ⟨?_, by decide, by decide, by decide, ?_, ?_⟩ <;>
  simp [api.StopContainer, bind, Prog.andThen, log.Printf, Prog.emit, Prog.invoke,
    client.Client.ContainerStop, daemonCalls]

/-- C7 (the code at a failing stop): the stop operation returns the daemon error as it is, under no
label, whereas the list operation wraps the same error with its label. -/
theorem StopContainer_error_not_wrapped :
    (api.StopContainer ⟨stubFailingAt (some 0)⟩ "c1" 0).result = some (some (.base "boom")) ∧
    (∀ label, (api.StopContainer ⟨stubFailingAt (some 0)⟩ "c1" 0).result ≠
      some (some (errors.Wrap (.base "boom") label))) ∧
    (api.ListContainers ⟨stubFailingAt (some 0)⟩ 0).result =
      some ([], some (errors.Wrap (.base "boom") "list containers")) := by
  refine ⟨rfl, ?_, rfl⟩
  intro label h
  have h2 : (api.StopContainer ⟨stubFailingAt (some 0)⟩ "c1" 0).result =
      some (some (.base "boom")) := rfl
  rw [h2] at h
  simp [errors.Wrap] at h

end

/-! ## The dispatcher -/

section

variable {σ : Type}

/-- The loop of `handleListContainers`: one line per container, in order, and nothing else. -/
theorem printLoop_run (cs : List Container) (s : σ) :
    (forIn cs PUnit.unit fun (c : Container) (_ : PUnit) =>
        (fmt.Println c.ID : Prog σ Unit) >>= fun _ => pure (ForInStep.yield PUnit.unit)) s =
      ⟨some (), cs.map fun c => .stdout (c.ID ++ "\n"), s⟩ := by
  induction cs with
  | nil => rfl
  | cons c cs ih =>
    rw [List.forIn_cons]
    simp only [Prog.bind_run, Prog.andThen, Prog.pure_run, fmt.Println, Prog.emit] at ih ⊢
    rw [ih]
    simp

theorem stdoutText_lines (cs : List Container) :
    stdoutText (cs.map fun c => Event.stdout (c.ID ++ "\n")) =
      String.join (cs.map fun c => c.ID ++ "\n") := by
  apply String.ext
  induction cs with
  | nil => simp [stdoutText]
  | cons c cs ih =>
    simp only [List.map_cons, stdoutText, String.data_append, ih, String.data_join,
      List.flatten_cons]

/-- C8: the list operation returns exactly the containers the daemon answered, and the handler
prints their identifiers in that order, each followed by a newline; when the daemon call fails
nothing is printed and the error is returned wrapped as "list containers". -/
theorem list_containers (a : api σ) (s : σ) :
    (∀ cs s1, a.docker.onContainerList {} s = (.ok cs, s1) →
      (a.ListContainers s).result = some (cs, none) ∧
      (handleListContainers a s).result = some none ∧
      (handleListContainers a s).events =
        (.call (.ContainerList {}) :: cs.map fun c => .stdout (c.ID ++ "\n")) ∧
      stdoutText (handleListContainers a s).events =
        String.join (cs.map fun c => c.ID ++ "\n")) ∧
    (∀ e s1, a.docker.onContainerList {} s = (.error e, s1) →
      (a.ListContainers s).result = some ([], some (GoError.withMessage e "list containers")) ∧
      (handleListContainers a s).result = some (some (GoError.withMessage e "list containers")) ∧
      (handleListContainers a s).events = [.call (.ContainerList {})] ∧
      stdoutText (handleListContainers a s).events = "") := by
  constructor
  · intro cs s1 h
    have hrun : handleListContainers a s =
        ⟨some none, .call (.ContainerList {}) :: cs.map fun c => .stdout (c.ID ++ "\n"), s1⟩ := by
      simp only [handleListContainers, api.ListContainers, Prog.bind_run, Prog.andThen,
        client.Client.ContainerList, Prog.invoke, h, Prog.pure_run, printLoop_run]
      simp
    refine ⟨?_, ?_, ?_, ?_⟩
    · simp [api.ListContainers, Prog.bind_run, Prog.andThen, client.Client.ContainerList,
        Prog.invoke, h, Prog.pure_run, errors.Wrap]
    · rw [hrun]
    · rw [hrun]
    · rw [hrun]
      simp only [stdoutText]
      exact stdoutText_lines cs
  · intro e s1 h
    have hrun : handleListContainers a s =
        ⟨some (some (GoError.withMessage e "list containers")), [.call (.ContainerList {})], s1⟩ := by
      simp [handleListContainers, api.ListContainers, Prog.bind_run, Prog.andThen,
        client.Client.ContainerList, Prog.invoke, h, Prog.pure_run, errors.Wrap]
    refine ⟨?_, ?_, ?_, ?_⟩
    · simp [api.ListContainers, Prog.bind_run, Prog.andThen, client.Client.ContainerList,
        Prog.invoke, h, Prog.pure_run, errors.Wrap]
    · rw [hrun]
    · rw [hrun]
    · rw [hrun]
      rfl

/-- Concrete instances for the listing: the containers "a" and "b", and a failing daemon. -/
theorem list_containers_witness :
    ((api.ListContainers ⟨stubFailingAt none⟩ 0).result =
        some ([{ ID := "a" }, { ID := "b" }], none) ∧
      stdoutText (handleListContainers ⟨stubFailingAt none⟩ 0).events = "a\nb\n") ∧
    ((handleListContainers ⟨stubFailingAt (some 0)⟩ 0).result =
        some (some (GoError.withMessage (.base "boom") "list containers")) ∧
      stdoutText (handleListContainers ⟨stubFailingAt (some 0)⟩ 0).events = "") :=
  have h0 := (list_containers ⟨stubFailingAt none⟩ 0).1 [{ ID := "a" }, { ID := "b" }] 1 rfl
  have h1 := (list_containers ⟨stubFailingAt (some 0)⟩ 0).2 (.base "boom") 1 rfl
  ⟨⟨h0.1, h0.2.2.2⟩, ⟨h1.2.1, h1.2.2.2⟩⟩

end

/-! ## Splitting a command line at spaces -/

theorem intercalate_go_data (acc sep : String) (l : List String) :
    (String.intercalate.go acc sep l).data =
      acc.data ++ (l.map fun t => sep.data ++ t.data).flatten := by
  induction l generalizing acc with
  | nil => simp [String.intercalate.go]
  | cons t ts ih => simp [String.intercalate.go, ih, String.data_append]

theorem list_intercalate_cons {α : Type} (sep t : List α) (ts : List (List α)) :
    List.intercalate sep (t :: ts) = t ++ (ts.map fun u => sep ++ u).flatten := by
  induction ts generalizing t with
  | nil => simp [List.intercalate]
  | cons u us ih =>
    have h := ih u
    simp only [List.intercalate, List.intersperse, List.flatten_cons, List.map_cons] at h ⊢
    rw [h]
    simp

theorem intercalate_mk_data (sep : String) (l : List (List Char)) :
    (String.intercalate sep (l.map String.mk)).data = List.intercalate sep.data l := by
  cases l with
  | nil => simp [String.intercalate, List.intercalate]
  | cons t ts =>
    rw [list_intercalate_cons]
    simp [String.intercalate, intercalate_go_data, Function.comp_def]

theorem Split_space (cmd : String) :
    strings.Split cmd " " = (strings.genSplit [' '] cmd.data 0).map String.mk := by
  simp [strings.Split]

theorem Split_space_tokens (cmd : String) :
    (∀ t ∈ strings.Split cmd " ", ' ' ∉ t.data) ∧
    (strings.Split cmd " ").length = cmd.data.count ' ' + 1 ∧
    " ".intercalate (strings.Split cmd " ") = cmd := by
  rw [Split_space]
  refine ⟨?_, ?_, ?_⟩
  · intro t ht
    obtain ⟨u, hu, rfl⟩ := List.mem_map.1 ht
    exact strings.genSplit_one_not_mem ' ' cmd.data u hu
  · rw [List.length_map, strings.genSplit_one_length]
  · apply String.ext
    rw [intercalate_mk_data]
    exact strings.genSplit_one_intercalate ' ' cmd.data

section

variable {σ : Type}

/-- C9: the run handler rejects an empty image without any effect, hands a run without a command
to the background run and nothing else, and otherwise hands the image and the command split at
every space to the run with a command and prints the captured output; the tokens contain no
space, are one more than the spaces of the command, and joined by spaces give the command back. -/
theorem handleRunContainer_dispatch (a : api σ) (img cmd : String) (s : σ) :
    (img = "" →
      handleRunContainer a img cmd s =
        ⟨some (some (fmt.Errorf "image not provided")), [], s⟩) ∧
    (img ≠ "" → cmd = "" → handleRunContainer a img cmd s = a.RunContainerBackground img s) ∧
    (img ≠ "" → cmd ≠ "" →
      (handleRunContainer a img cmd s).daemon =
        (a.RunContainerCmd img (strings.Split cmd " ") s).daemon ∧
      daemonCalls (handleRunContainer a img cmd s).events =
        daemonCalls (a.RunContainerCmd img (strings.Split cmd " ") s).events ∧
      (∀ out, (a.RunContainerCmd img (strings.Split cmd " ") s).result = some (out, none) →
        (handleRunContainer a img cmd s).result = some none ∧
        (handleRunContainer a img cmd s).events =
          (a.RunContainerCmd img (strings.Split cmd " ") s).events ++ [.stdout (out ++ "\n")]) ∧
      (∀ out e, (a.RunContainerCmd img (strings.Split cmd " ") s).result = some (out, some e) →
        (handleRunContainer a img cmd s).result = some (some e) ∧
        (handleRunContainer a img cmd s).events =
          (a.RunContainerCmd img (strings.Split cmd " ") s).events) ∧
      ((a.RunContainerCmd img (strings.Split cmd " ") s).result = none →
        (handleRunContainer a img cmd s).result = none ∧
        (handleRunContainer a img cmd s).events =
          (a.RunContainerCmd img (strings.Split cmd " ") s).events)) ∧
    ((∀ t ∈ strings.Split cmd " ", ' ' ∉ t.data) ∧
      (strings.Split cmd " ").length = cmd.data.count ' ' + 1 ∧
      " ".intercalate (strings.Split cmd " ") = cmd) ∧
    strings.Split "echo hi" " " = ["echo", "hi"] := by
  refine ⟨?_, ?_, ?_, Split_space_tokens cmd, by decide⟩
  · intro h
    simp [handleRunContainer, h, Prog.pure_run]
  · intro h1 h2
    simp [handleRunContainer, h1, h2]
  · intro h1 h2
    simp only [handleRunContainer, if_neg h1, if_neg h2, Prog.bind_run, Prog.andThen]
    generalize a.RunContainerCmd img (strings.Split cmd " ") s = r
    rcases r with ⟨_ | ⟨out, _ | e⟩, ev, s1⟩ <;>
      simp [Prog.pure_run, Prog.bind_run, Prog.andThen, fmt.Println, Prog.emit,
        daemonCalls_append, daemonCalls]

/-- Concrete instances for the run handler: an empty image, a run without a command, and the
command "echo hi" on image "alpine". -/
theorem handleRunContainer_dispatch_witness :
    handleRunContainer ⟨stubFailingAt none⟩ "" "echo hi" 0 =
      ⟨some (some (.base "image not provided")), [], 0⟩ ∧
    handleRunContainer ⟨stubFailingAt none⟩ "alpine" "" 0 =
      api.RunContainerBackground ⟨stubFailingAt none⟩ "alpine" 0 ∧
    ((handleRunContainer ⟨stubFailingAt none⟩ "alpine" "echo hi" 0).result = some none ∧
      (handleRunContainer ⟨stubFailingAt none⟩ "alpine" "echo hi" 0).events =
        (api.RunContainerCmd ⟨stubFailingAt none⟩ "alpine" ["echo", "hi"] 0).events ++
          [.stdout "hi\n\n"]) :=
  ⟨(handleRunContainer_dispatch ⟨stubFailingAt none⟩ "" "echo hi" 0).1 rfl,
   (handleRunContainer_dispatch ⟨stubFailingAt none⟩ "alpine" "" 0).2.1 (by decide) rfl,
   ((handleRunContainer_dispatch ⟨stubFailingAt none⟩ "alpine" "echo hi" 0).2.2.1
      (by decide) (by decide)).2.2.1 "hi\n" rfl⟩

/-- C10: on the empty image the background run fails for every daemon behind the Docker client,
also one whose pull, create and start all succeed: the client refuses the empty reference, no
request reaches the daemon, neither create nor start is called, and the error comes back wrapped
as "pull image". -/
theorem RunContainerBackground_empty_image_fails (grammar : String → Bool)
    (daemon : client.Client σ) (s : σ) :
    (api.RunContainerBackground ⟨client.NewClientWithOpts grammar daemon⟩ "" s).result =
      some (some (.withMessage reference.ErrReferenceInvalidFormat "pull image")) ∧
    daemonCalls (api.RunContainerBackground ⟨client.NewClientWithOpts grammar daemon⟩ "" s).events =
      [.ImagePull "" {}] ∧
    (api.RunContainerBackground ⟨client.NewClientWithOpts grammar daemon⟩ "" s).daemon = s ∧
    ((stubFailingAt none).onImagePull "" {} 0 = (.ok {}, 1) ∧
      (api.RunContainerBackground
          ⟨client.NewClientWithOpts (fun _ => true) (stubFailingAt none)⟩ "" 0).result =
        some (some (.withMessage (.base "invalid reference format") "pull image")) ∧
      (api.RunContainerBackground ⟨client.NewClientWithOpts (fun _ => true) (stubFailingAt none)⟩
          "registry.example.com/library/alpine" 0).result = some none) := by
  refine ⟨?_, ?_, ?_, rfl, rfl, rfl⟩ <;>
  simp [api.RunContainerBackground, api.imagePull, bind, Prog.andThen, pure, Prog.ret,
    errors.Wrap, log.Printf, Prog.emit, Prog.invoke, client.Client.ImagePull,
    client.NewClientWithOpts, reference.ParseNormalizedNamed, daemonCalls]

end
